import Mathlib

/-!
Shallow embedding of the proto_ls lexer and recursive-descent parser
(`src/parser/scanner.rs` and `src/parser/mod.rs`).

Modelling conventions:
* Bytes are `Nat` (the input is a byte stream; `Scanner`'s `BufReader`,
  internal lookahead buffer and `RefCell` are observationally a byte list,
  so the scanner state is the list of not-yet-consumed bytes).
* Rust `String` values (error messages aside) are byte lists (`List Nat`).
  `String::from_utf8(..)` on identifier bytes (`[A-Za-z0-9_]`) always
  succeeds, so those conversions are the identity here.
* Fallible Rust functions returning `anyhow::Result` become `Except String`
  or the `PRes` outcome type below; `panic!`, `todo!` and `unwrap` on an
  error become the explicit `panicked` outcome.
* The recursive parser loops are given a fuel parameter (structural
  recursion); running out of fuel yields `panicked "out of fuel"`, an
  outcome the actual runs never reach because every loop iteration consumes
  at least one input byte.  No theorem below depends on fuel adequacy:
  statements are either about concrete runs (which compute) or conditioned
  on an `ok` result (which the fuel branch never produces).
-/

/-- Bytes of an ASCII string literal, for readable concrete inputs. -/
def ascii (s : String) : List Nat := s.data.map Char.toNat

/-- Modelled from the spec: the token type of `src/parser/tokens.rs`, a file
that is not present in the sources.  Its variants are reconstructed from
the spec (§3 "Token: tagged variant with payload per kind", §4.2) and from
every construction and match in `scanner.rs` and `mod.rs` (including the
scalar-type variants `Bool/String/Bytes/Float/Double` matched by
`ProtoFieldType::from_token`).  The `IntLiteral` payload is Rust `isize`;
the scanner only builds it from an unsigned decimal literal, so it is a
`Nat` here with the `isize` overflow bound checked where the code parses. -/
inductive ProtoToken where
  | FullIdentifier (segs : List (List Nat))
  | Identifier (name : List Nat)
  | StringLiteral (s : List Nat)
  | IntLiteral (n : Nat)
  | Colon
  | SemiColon
  | Syntax
  | Package
  | Option
  | Import
  | Message
  | Service
  | Enum
  | OneOf
  | Repeated
  | OpenBrace
  | CloseBrace
  | OpenParen
  | CloseParen
  | OpenBracket
  | CloseBracket
  | Equals
  | Weak
  | Public
  | Reserved
  | Extend
  | Extensions
  | To
  | Max
  | Map
  | LessThan
  | GreaterThan
  | Comma
  | Comment (text : List Nat)
  | Bool
  | String
  | Bytes
  | Float
  | Double
deriving DecidableEq

/-- The `strum::Display` derive prints the bare variant name; used by the
`bail!` format strings of `expect` and the parser. -/
def tokenName : ProtoToken → String
  | .FullIdentifier _ => "FullIdentifier"
  | .Identifier _ => "Identifier"
  | .StringLiteral _ => "StringLiteral"
  | .IntLiteral _ => "IntLiteral"
  | .Colon => "Colon"
  | .SemiColon => "SemiColon"
  | .Syntax => "Syntax"
  | .Package => "Package"
  | .Option => "Option"
  | .Import => "Import"
  | .Message => "Message"
  | .Service => "Service"
  | .Enum => "Enum"
  | .OneOf => "OneOf"
  | .Repeated => "Repeated"
  | .OpenBrace => "OpenBrace"
  | .CloseBrace => "CloseBrace"
  | .OpenParen => "OpenParen"
  | .CloseParen => "CloseParen"
  | .OpenBracket => "OpenBracket"
  | .CloseBracket => "CloseBracket"
  | .Equals => "Equals"
  | .Weak => "Weak"
  | .Public => "Public"
  | .Reserved => "Reserved"
  | .Extend => "Extend"
  | .Extensions => "Extensions"
  | .To => "To"
  | .Max => "Max"
  | .Map => "Map"
  | .LessThan => "LessThan"
  | .GreaterThan => "GreaterThan"
  | .Comma => "Comma"
  | .Comment _ => "Comment"
  | .Bool => "Bool"
  | .String => "String"
  | .Bytes => "Bytes"
  | .Float => "Float"
  | .Double => "Double"

/-- Result of one `Scanner::next` call (`impl Iterator for Scanner`):
a token, end of sequence (`None`), or a Rust panic.  Each carries the
remaining unconsumed bytes of the scanner state. -/
inductive NextRes where
  | tok (t : ProtoToken) (rest : List Nat)
  | eof (rest : List Nat)
  | panicked (msg : String)
deriving DecidableEq

/-- Whitespace set of `Scanner::whitespace`: space, CR, LF, tab. -/
def isWsByte (c : Nat) : Bool := c = 32 || c = 13 || c = 10 || c = 9

/-- `Scanner::whitespace` consumes all leading whitespace. -/
def skipWs (bs : List Nat) : List Nat := bs.dropWhile isWsByte

/-- First-byte test of `Scanner::ident`: `b'a'..=b'z' | b'A'..=b'Z'`. -/
def isAlphaByte (c : Nat) : Bool :=
  (97 ≤ c && c ≤ 122) || (65 ≤ c && c ≤ 90)

/-- Continuation test of `Scanner::ident`'s `scan` closure:
letters, digits, underscore. -/
def isIdentByte (c : Nat) : Bool :=
  (97 ≤ c && c ≤ 122) || (65 ≤ c && c ≤ 90) || (48 ≤ c && c ≤ 57) || c = 95

/-- Digit test of `Scanner::int_literal`'s `scan` closure. -/
def isDigitByte (c : Nat) : Bool := 48 ≤ c && c ≤ 57

/-- `Scanner::ident`: `None` unless the next byte is a letter, else the
maximal run of `[A-Za-z0-9_]` bytes (via `scan`, which returns `None` on an
empty match). -/
def identFn : List Nat → Option (List Nat × List Nat)
  | [] => none
  | c :: rest =>
    if isAlphaByte c then
      let seq := (c :: rest).takeWhile isIdentByte
      if seq = [] then none else some (seq, (c :: rest).dropWhile isIdentByte)
    else none

/-- Loop body of `Scanner::full_ident`: collect dot-separated identifier
segments; after a consumed dot a further identifier is `required`, and its
absence is the error `ident is required after a dot`.  Returns the new
scanner state together with the result (the Rust method mutates `self`
even when it returns `Err`). -/
def fullIdentLoop : Nat → List (List Nat) → Bool → List Nat →
    Except String (Option (List (List Nat))) × List Nat
  | 0, _, _, bs => (.error "out of fuel", bs)
  | fuel+1, seq, required, bs =>
    match identFn bs with
    | some (id, rest) =>
      match rest with
      | 46 :: rest2 => fullIdentLoop fuel (seq ++ [id]) true rest2
      | _ => (.ok (some (seq ++ [id])), rest)
    | none =>
      if required then (.error "ident is required after a dot", bs)
      else if seq = [] then (.ok none, bs) else (.ok (some seq), bs)

/-- `Scanner::full_ident`.  Each loop iteration consumes an identifier and
a dot, so `length + 1` fuel is more than the loop can use. -/
def fullIdentFn (bs : List Nat) : Except String (Option (List (List Nat))) × List Nat :=
  fullIdentLoop (bs.length + 1) [] false bs

/-- The keyword match of `Scanner::next` on a single-segment identifier
(scanner.rs lines 299-318): seventeen case-sensitive keywords; everything
else becomes `Identifier`.  (Note: no scalar-type names here.) -/
def keywordToken (nv : List Nat) : ProtoToken :=
  if nv = ascii "syntax" then .Syntax
  else if nv = ascii "package" then .Package
  else if nv = ascii "option" then .Option
  else if nv = ascii "import" then .Import
  else if nv = ascii "message" then .Message
  else if nv = ascii "service" then .Service
  else if nv = ascii "enum" then .Enum
  else if nv = ascii "oneof" then .OneOf
  else if nv = ascii "repeated" then .Repeated
  else if nv = ascii "weak" then .Weak
  else if nv = ascii "public" then .Public
  else if nv = ascii "reserved" then .Reserved
  else if nv = ascii "extend" then .Extend
  else if nv = ascii "extensions" then .Extensions
  else if nv = ascii "to" then .To
  else if nv = ascii "max" then .Max
  else if nv = ascii "map" then .Map
  else .Identifier nv

/-- The seventeen keyword spellings of the scanner's table, in source
order. -/
def keywordList : List (List Nat) :=
  [ascii "syntax", ascii "package", ascii "option", ascii "import",
   ascii "message", ascii "service", ascii "enum", ascii "oneof",
   ascii "repeated", ascii "weak", ascii "public", ascii "reserved",
   ascii "extend", ascii "extensions", ascii "to", ascii "max", ascii "map"]

/-- Escape-handling loop of `Scanner::string_literal`: while the next byte
is a backslash, consume it plus exactly one following byte verbatim, then
take bytes up to the next delimiter or backslash (`take_until_consume`
with `include_eof = false`, which fails at end of input); on loop exit the
closing delimiter is popped. -/
def escLoop : Nat → Nat → List Nat → List Nat → Except String (List Nat) × List Nat
  | 0, _, _, bs => (.error "out of fuel", bs)
  | fuel+1, openc, buf, bs =>
    match bs with
    | [] => (.ok buf, [])
    | c :: rest =>
      if c = 92 then
        match rest with
        | [] => (.error "expected a character after an escape character", [])
        | b :: rest2 =>
          let part := rest2.takeWhile (fun x => x != openc && x != 92)
          let rest3 := rest2.dropWhile (fun x => x != openc && x != 92)
          match rest3 with
          | [] => (.error "didn\x27t match predicate", [])
          | _ => escLoop fuel openc (buf ++ [b] ++ part) rest3
      else (.ok buf, rest)

/-- `Scanner::string_literal` (the opening delimiter already consumed):
bytes up to the first delimiter or backslash, then the escape loop.
Reaching end of input before a delimiter is the `take_until_consume`
failure. -/
def stringLitFn (openc : Nat) (bs : List Nat) : Except String (List Nat) × List Nat :=
  let buf := bs.takeWhile (fun x => x != openc && x != 92)
  let rest := bs.dropWhile (fun x => x != openc && x != 92)
  match rest with
  | [] => (.error "didn\x27t match predicate", [])
  | _ => escLoop (rest.length + 1) openc buf rest

/-- `Scanner::string`: `None` unless the next byte is `"` or `'`; that
delimiter is consumed and `string_literal` runs. -/
def stringFn : List Nat → Option (Except String (List Nat) × List Nat)
  | [] => none
  | c :: rest =>
    if c = 34 then some (stringLitFn 34 rest)
    else if c = 39 then some (stringLitFn 39 rest)
    else none

/-- `Scanner::int_literal`: `None` unless the next byte is `1..=9`, else
the maximal digit run. -/
def intLitFn : List Nat → Option (List Nat × List Nat)
  | [] => none
  | c :: rest =>
    if 49 ≤ c && c ≤ 57 then
      let seq := (c :: rest).takeWhile isDigitByte
      if seq = [] then none else some (seq, (c :: rest).dropWhile isDigitByte)
    else none

/-- Decimal value of a digit-byte run, as `str::parse` computes it. -/
def parseDigits (ds : List Nat) : Nat := ds.foldl (fun a d => a * 10 + (d - 48)) 0

/-- `isize::MAX` on the 64-bit targets the crate builds for; beyond it
`parse().unwrap()` panics. -/
def isizeMax : Nat := 9223372036854775807

/-- The `b'/' → b'/'` arm of `Scanner::next`: a line comment is everything
up to (not including) a newline or NUL or end of input;
`take_until_consume_including` then pops the terminator (a no-op at end of
input). -/
def lineCommentTok (bs : List Nat) : NextRes :=
  let buf := bs.takeWhile (fun c => c != 10 && c != 0)
  let rest := bs.dropWhile (fun c => c != 10 && c != 0)
  .tok (.Comment buf) rest.tail

/-- The `b'/' → b'*'` arm of `Scanner::next`: repeatedly take bytes up to a
`*` (`take_until_consume` with `include_eof = false`, whose failure at end
of input hits `.unwrap()`), pop the `*`, and look at the next byte: end of
input is the explicit `panic!("EOF before end of multiline comment")`, `/`
closes the comment, anything else keeps the `*` in the text and
continues. -/
def blockLoop : Nat → List Nat → List Nat → NextRes
  | 0, _, _ => .panicked "out of fuel"
  | fuel+1, acc, bs =>
    let part := bs.takeWhile (fun c => c != 42)
    let rest := bs.dropWhile (fun c => c != 42)
    match rest with
    | [] => .panicked "called unwrap on an Err value: didn\x27t match predicate"
    | _ :: rest2 =>
      match rest2 with
      | [] => .panicked "EOF before end of multiline comment"
      | c :: rest3 =>
        if c = 47 then .tok (.Comment (acc ++ part)) rest3
        else blockLoop fuel (acc ++ part ++ [42]) rest2

/-- The `b'/'` arm of `Scanner::next` after the slash is popped: `//` and
`/*` start comments; any other following byte (or end of input) makes
`next` return `None` with the slash already consumed. -/
def slashPhase : List Nat → NextRes
  | [] => .eof []
  | c :: rest =>
    if c = 47 then lineCommentTok rest
    else if c = 42 then blockLoop (rest.length + 1) [] rest
    else .eof (c :: rest)

/-- The punctuation match of `Scanner::next` (scanner.rs lines 341-408):
twelve single-byte tokens, the `/` comment entry, and for any other byte
`None` without consuming it. -/
def punctPhase : List Nat → NextRes
  | [] => .eof []
  | c :: rest =>
    if c = 59 then .tok .SemiColon rest
    else if c = 61 then .tok .Equals rest
    else if c = 123 then .tok .OpenBracket rest
    else if c = 125 then .tok .CloseBracket rest
    else if c = 40 then .tok .OpenParen rest
    else if c = 41 then .tok .CloseParen rest
    else if c = 91 then .tok .OpenBrace rest
    else if c = 93 then .tok .CloseBrace rest
    else if c = 58 then .tok .Colon rest
    else if c = 60 then .tok .LessThan rest
    else if c = 62 then .tok .GreaterThan rest
    else if c = 44 then .tok .Comma rest
    else if c = 47 then slashPhase rest
    else .eof (c :: rest)

/-- The integer-literal stage of `Scanner::next`: on a match, the digit
run is parsed (`parse::<isize>().unwrap()` panics above `isize::MAX`);
otherwise fall through to punctuation. -/
def intPhase (bs : List Nat) : NextRes :=
  match intLitFn bs with
  | some (ds, rest) =>
    if parseDigits ds ≤ isizeMax then .tok (.IntLiteral (parseDigits ds)) rest
    else .panicked "called unwrap on an Err value: ParseIntError"
  | none => punctPhase bs

/-- The string-literal stage of `Scanner::next`: an `Ok` literal becomes a
`StringLiteral` token; an `Err` (unterminated literal, missing escape
target) makes `next` return `None`; no delimiter falls through. -/
def stringPhase (bs : List Nat) : NextRes :=
  match stringFn bs with
  | some (.ok s, rest) => .tok (.StringLiteral s) rest
  | some (.error _, rest) => .eof rest
  | none => intPhase bs

/-- `Scanner::next` after whitespace: `if let Ok(Some(name)) =
self.full_ident()` — a one-segment result goes through the keyword table,
a multi-segment result is a `FullIdentifier`, and both `Ok(None)` and
`Err(_)` (the error is discarded!) fall through to the later stages with
whatever state `full_ident` left behind. -/
def nextCore (bs : List Nat) : NextRes :=
  match fullIdentFn bs with
  | (.ok (some name), rest) =>
    match name with
    | [nv] => .tok (keywordToken nv) rest
    | _ => .tok (.FullIdentifier name) rest
  | (.ok none, rest) => stringPhase rest
  | (.error _, rest) => stringPhase rest

/-- `Scanner::next` (`impl Iterator`): skip whitespace, then the staged
token match.  (The `is_done` early return is dead: `done` is initialized
`false` and never written.) -/
def scanNext (bs : List Nat) : NextRes := nextCore (skipWs bs)

/-- Outcome of a parser routine returning `anyhow::Result<A>`: success
with the remaining scanner state, an error, or a Rust panic. -/
inductive PRes (α : Type) where
  | ok (a : α) (rest : List Nat)
  | err (msg : String)
  | panicked (msg : String)
deriving DecidableEq

/-- Loop of `Scanner::expect`: read the next token, skip `Comment` tokens
by recursing, and compare the rest against the wanted token, with the
`wanted .. but ..` error messages.  Each skipped comment consumes at least
two bytes, bounding the recursion. -/
def expectLoop : Nat → ProtoToken → List Nat → PRes ProtoToken
  | 0, _, _ => .panicked "out of fuel"
  | fuel+1, tkn, bs =>
    match scanNext bs with
    | .eof _ => .err ("wanted " ++ tokenName tkn ++ " but received EOF")
    | .panicked m => .panicked m
    | .tok got rest =>
      match got with
      | .Comment _ => expectLoop fuel tkn rest
      | _ =>
        if tkn = got then .ok tkn rest
        else .err ("wanted " ++ tokenName tkn ++ " but got " ++ tokenName got)

/-- `Scanner::expect`. -/
def expectTok (tkn : ProtoToken) (bs : List Nat) : PRes ProtoToken :=
  expectLoop (bs.length + 1) tkn bs

/-- `ProtoSyntax` (mod.rs). -/
inductive ProtoSyntax where
  | Proto2
  | Proto3
deriving DecidableEq

/-- `ProtoImportType` (mod.rs). -/
inductive ProtoImportType where
  | Default
  | Weak
  | Public
deriving DecidableEq

/-- `ProtoImport` (mod.rs). -/
structure ProtoImport where
  importType : ProtoImportType
  path : List Nat
deriving DecidableEq

/-- `ProtoOption` (mod.rs). -/
structure ProtoOption where
  name : List Nat
  value : List Nat
deriving DecidableEq

/-- `ProtoFieldType` (mod.rs): scalar keywords, identifiers, and the
recursive boxed map type. -/
inductive ProtoFieldType where
  | FullIdentifier (segs : List (List Nat))
  | Identifier (id : List Nat)
  | Bool
  | String
  | Bytes
  | Float
  | Double
  | Map (key : ProtoFieldType) (value : ProtoFieldType)
deriving DecidableEq

/-- `MessageField` (mod.rs): `index` is the Rust `u16` after the checked
`try_into`. -/
structure MessageField where
  fieldType : ProtoFieldType
  name : List Nat
  index : Nat
deriving DecidableEq

/-- `ProtoMessage` (mod.rs): recursive tree of nested messages. -/
inductive ProtoMessage where
  | mk (name : List Nat) (fields : List MessageField) (messages : List ProtoMessage)

/-- Field list of a message. -/
def ProtoMessage.fields : ProtoMessage → List MessageField
  | .mk _ fs _ => fs

/-- Nested messages of a message. -/
def ProtoMessage.nested : ProtoMessage → List ProtoMessage
  | .mk _ _ ms => ms

/-- `ProtoRpc` (mod.rs); never constructed because `scan_service` is
`todo!()`. -/
structure ProtoRpc where
  name : List Nat
  params : List (List Nat)
  returns : List Nat

/-- `ProtoService` (mod.rs). -/
structure ProtoService where
  name : List Nat
  rpcs : List ProtoRpc

/-- `ProtoFile` (mod.rs).  `package` keeps the identifier-byte segments;
the `String::from_utf8` mapping in `scan_file` is the identity on them
(identifier bytes are ASCII). -/
structure ProtoFile where
  syntaxVersion : ProtoSyntax
  package : List (List Nat)
  imports : List ProtoImport
  options : List ProtoOption
  messages : List ProtoMessage
  services : List ProtoService

/-- `scan_syntax` (mod.rs): `expect(Syntax)`, `expect(Equals)`, a
`StringLiteral` whose value must be `proto3` or `proto2`, then
`expect(SemiColon)`. -/
def scanSyntax (bs : List Nat) : PRes ProtoSyntax :=
  match expectTok .Syntax bs with
  | .ok _ r1 =>
    match expectTok .Equals r1 with
    | .ok _ r2 =>
      match scanNext r2 with
      | .tok (.StringLiteral s) r3 =>
        if s = ascii "proto3" then
          match expectTok .SemiColon r3 with
          | .ok _ r4 => .ok .Proto3 r4
          | .err m => .err m
          | .panicked m => .panicked m
        else if s = ascii "proto2" then
          match expectTok .SemiColon r3 with
          | .ok _ r4 => .ok .Proto2 r4
          | .err m => .err m
          | .panicked m => .panicked m
        else .err "expected a syntax of either \x27proto3\x27 or \x27proto2\x27"
      | .tok _ _ => .err "expected string literal"
      | .eof _ => .err "expected string literal"
      | .panicked m => .panicked m
    | .err m => .err m
    | .panicked m => .panicked m
  | .err m => .err m
  | .panicked m => .panicked m

/-- `scan_package` (mod.rs): a `FullIdentifier` token then `;`. -/
def scanPackage (bs : List Nat) : PRes (List (List Nat)) :=
  match scanNext bs with
  | .tok (.FullIdentifier pkg) r1 =>
    match expectTok .SemiColon r1 with
    | .ok _ r2 => .ok pkg r2
    | .err m => .err m
    | .panicked m => .panicked m
  | .tok _ _ => .err "expected identifier"
  | .eof _ => .err "expected identifier"
  | .panicked m => .panicked m

/-- `scan_option` (mod.rs): `Identifier`, `=`, `StringLiteral`, `;`. -/
def scanOption (bs : List Nat) : PRes ProtoOption :=
  match scanNext bs with
  | .tok (.Identifier id) r1 =>
    match expectTok .Equals r1 with
    | .ok _ r2 =>
      match scanNext r2 with
      | .tok (.StringLiteral opt) r3 =>
        match expectTok .SemiColon r3 with
        | .ok _ r4 => .ok ⟨id, opt⟩ r4
        | .err m => .err m
        | .panicked m => .panicked m
      | .tok _ _ => .err "expected string literal"
      | .eof _ => .err "expected string literal"
      | .panicked m => .panicked m
    | .err m => .err m
    | .panicked m => .panicked m
  | .tok _ _ => .err "expected identifier"
  | .eof _ => .err "expected identifier"
  | .panicked m => .panicked m

/-- Tail of `scan_import` once the token that should be the path string is
in hand: it must be a `StringLiteral`, then `;`. -/
def scanImportFinish (t : ProtoImportType) (tok : ProtoToken) (bs : List Nat) :
    PRes ProtoImport :=
  match tok with
  | .StringLiteral imp =>
    match expectTok .SemiColon bs with
    | .ok _ r => .ok ⟨t, imp⟩ r
    | .err m => .err m
    | .panicked m => .panicked m
  | _ => .err "expected string literal"

/-- `scan_import` (mod.rs): an optional `public`/`weak` modifier (any other
first token is treated as the path candidate itself), then the string
literal and `;`. -/
def scanImport (bs : List Nat) : PRes ProtoImport :=
  match scanNext bs with
  | .eof _ =>
    .err "expected either \x27public\x27, \x27weak\x27 or a string literal after \x27import\x27"
  | .panicked m => .panicked m
  | .tok first r1 =>
    match first with
    | .Public =>
      match scanNext r1 with
      | .eof _ => .err "expected a string literal to import"
      | .panicked m => .panicked m
      | .tok second r2 => scanImportFinish .Public second r2
    | .Weak =>
      match scanNext r1 with
      | .eof _ => .err "expected a string literal to import"
      | .panicked m => .panicked m
      | .tok second r2 => scanImportFinish .Weak second r2
    | _ => scanImportFinish .Default first r1

/-- `scan_service` (mod.rs) is `todo!()`. -/
def scanService (_bs : List Nat) : PRes ProtoService :=
  .panicked "not yet implemented"

mutual

/-- `ProtoFieldType::from_token` (mod.rs): identifiers and scalar-keyword
tokens map directly; `Map` demands `<`, a key `FieldType`, `,`, a value
`FieldType`, `>`, with key and value resolved by the same function
(`let Some(..) = scan.next() else bail!("")` on a missing token); anything
else is `non proto field type ..`. -/
def fromToken : Nat → ProtoToken → List Nat → PRes ProtoFieldType
  | 0, _, _ => .panicked "out of fuel"
  | fuel+1, t, bs =>
    match t with
    | .FullIdentifier id => .ok (.FullIdentifier id) bs
    | .Identifier id => .ok (.Identifier id) bs
    | .Bool => .ok .Bool bs
    | .String => .ok .String bs
    | .Bytes => .ok .Bytes bs
    | .Float => .ok .Float bs
    | .Double => .ok .Double bs
    | .Map =>
      match expectTok .LessThan bs with
      | .ok _ r1 =>
        match scanNext r1 with
        | .tok keyTok r2 =>
          match fromToken fuel keyTok r2 with
          | .ok key r3 =>
            match expectTok .Comma r3 with
            | .ok _ r4 =>
              match scanNext r4 with
              | .tok valTok r5 =>
                match fromToken fuel valTok r5 with
                | .ok value r6 =>
                  match expectTok .GreaterThan r6 with
                  | .ok _ r7 => .ok (.Map key value) r7
                  | .err m => .err m
                  | .panicked m => .panicked m
                | .err m => .err m
                | .panicked m => .panicked m
              | .eof _ => .err ""
              | .panicked m => .panicked m
            | .err m => .err m
            | .panicked m => .panicked m
          | .err m => .err m
          | .panicked m => .panicked m
        | .eof _ => .err ""
        | .panicked m => .panicked m
      | .err m => .err m
      | .panicked m => .panicked m
    | other => .err ("non proto field type " ++ tokenName other)

/-- `scan_message_field` (mod.rs): the already-read first token gives the
`FieldType`, then `Identifier` name, `expect(Equals)`, `IntLiteral` index,
`expect(SemiColon)`, and the `u16` conversion `index.try_into()?` which
fails above 65535. -/
def scanMessageField : Nat → ProtoToken → List Nat → PRes MessageField
  | 0, _, _ => .panicked "out of fuel"
  | fuel+1, first, bs =>
    match fromToken fuel first bs with
    | .ok ty r1 =>
      match scanNext r1 with
      | .tok (.Identifier name) r2 =>
        match expectTok .Equals r2 with
        | .ok _ r3 =>
          match scanNext r3 with
          | .tok (.IntLiteral idx) r4 =>
            match expectTok .SemiColon r4 with
            | .ok _ r5 =>
              if idx ≤ 65535 then .ok ⟨ty, name, idx⟩ r5
              else .err "out of range integral type conversion attempted"
            | .err m => .err m
            | .panicked m => .panicked m
          | .tok _ _ => .err "expected int literal"
          | .eof _ => .err "expected int literal"
          | .panicked m => .panicked m
        | .err m => .err m
        | .panicked m => .panicked m
      | .tok _ _ => .err "expected identifier/type"
      | .eof _ => .err "expected identifier/type"
      | .panicked m => .panicked m
    | .err m => .err m
    | .panicked m => .panicked m

/-- `scan_message` (mod.rs): `Identifier` name, `expect(OpenBracket)`,
then the body loop. -/
def scanMessage : Nat → List Nat → PRes ProtoMessage
  | 0, _ => .panicked "out of fuel"
  | fuel+1, bs =>
    match scanNext bs with
    | .tok (.Identifier name) r1 =>
      match expectTok .OpenBracket r1 with
      | .ok _ r2 => scanMessageLoop fuel name [] [] r2
      | .err m => .err m
      | .panicked m => .panicked m
    | .tok _ _ => .err "expected identifier"
    | .eof _ => .err "expected identifier"
    | .panicked m => .panicked m

/-- Body loop of `scan_message`: `}` (or end of input — `while let`
simply stops) finishes the message, `message` recurses into a nested
message, any other token starts a field declaration. -/
def scanMessageLoop : Nat → List Nat → List MessageField → List ProtoMessage →
    List Nat → PRes ProtoMessage
  | 0, _, _, _, _ => .panicked "out of fuel"
  | fuel+1, name, fields, msgs, bs =>
    match scanNext bs with
    | .eof rest => .ok (.mk name fields msgs) rest
    | .panicked m => .panicked m
    | .tok t rest =>
      match t with
      | .CloseBracket => .ok (.mk name fields msgs) rest
      | .Message =>
        match scanMessage fuel rest with
        | .ok m r2 => scanMessageLoop fuel name fields (msgs ++ [m]) r2
        | .err m => .err m
        | .panicked m => .panicked m
      | other =>
        match scanMessageField fuel other rest with
        | .ok f r2 => scanMessageLoop fuel name (fields ++ [f]) msgs r2
        | .err m => .err m
        | .panicked m => .panicked m

/-- Top-level loop of `scan_file` (mod.rs): comments and stray `;` are
skipped, `package`/`option`/`import`/`message`/`service` dispatch to their
scanners, a second `syntax` and a top-level `enum` are `todo!()`, and any
other token is `unexpected token ..`.  End of input returns the
document. -/
def scanFileLoop : Nat → ProtoSyntax → List (List Nat) → List ProtoImport →
    List ProtoOption → List ProtoMessage → List ProtoService → List Nat → PRes ProtoFile
  | 0, _, _, _, _, _, _, _ => .panicked "out of fuel"
  | fuel+1, syn, pkg, imps, opts, msgs, svcs, bs =>
    match scanNext bs with
    | .eof rest => .ok ⟨syn, pkg, imps, opts, msgs, svcs⟩ rest
    | .panicked m => .panicked m
    | .tok t rest =>
      match t with
      | .Comment _ => scanFileLoop fuel syn pkg imps opts msgs svcs rest
      | .SemiColon => scanFileLoop fuel syn pkg imps opts msgs svcs rest
      | .Syntax => .panicked "not yet implemented"
      | .Package =>
        match scanPackage rest with
        | .ok p r2 => scanFileLoop fuel syn p imps opts msgs svcs r2
        | .err m => .err m
        | .panicked m => .panicked m
      | .Option =>
        match scanOption rest with
        | .ok o r2 => scanFileLoop fuel syn pkg imps (opts ++ [o]) msgs svcs r2
        | .err m => .err m
        | .panicked m => .panicked m
      | .Import =>
        match scanImport rest with
        | .ok i r2 => scanFileLoop fuel syn pkg (imps ++ [i]) opts msgs svcs r2
        | .err m => .err m
        | .panicked m => .panicked m
      | .Message =>
        match scanMessage fuel rest with
        | .ok m r2 => scanFileLoop fuel syn pkg imps opts (msgs ++ [m]) svcs r2
        | .err m => .err m
        | .panicked m => .panicked m
      | .Service =>
        match scanService rest with
        | .ok s r2 => scanFileLoop fuel syn pkg imps opts msgs (svcs ++ [s]) r2
        | .err m => .err m
        | .panicked m => .panicked m
      | .Enum => .panicked "not yet implemented"
      | other => .err ("unexpected token " ++ tokenName other)

end

/-- `scan_file` (mod.rs): the syntax declaration first, then the top-level
loop.  The fuel is generous; every loop step consumes input, so the
`out of fuel` branch is unreachable on real runs (and no theorem relies on
that). -/
def scanFile (bs : List Nat) : PRes ProtoFile :=
  match scanSyntax bs with
  | .ok syn rest => scanFileLoop (8 * rest.length + 64) syn [] [] [] [] [] rest
  | .err m => .err m
  | .panicked m => .panicked m

/-- Field-number well-formedness, recursively through nested messages:
every field's number is at least 1 and at most 65535 (`u16` range). -/
inductive GoodMsg : ProtoMessage → Prop where
  | mk (name : List Nat) (fields : List MessageField) (messages : List ProtoMessage) :
      (∀ f ∈ fields, 1 ≤ f.index ∧ f.index ≤ 65535) →
      (∀ m ∈ messages, GoodMsg m) →
      GoodMsg (.mk name fields messages)

/-! ## Claim theorems -/

/-- Claim C2 (counterexample): parsing
`syntax = "proto3"; package a.b; message M { string name = 1; }` does
succeed with syntax version Proto3, package `["a","b"]` and one message
`M` with one field named `name` numbered 1 — but the field's type is the
generic identifier `string`, not the scalar `String` type the claim
demands, because the scanner's keyword table has no scalar-type entries. -/
theorem basic_parse_field_type_not_scalar :
    scanFile (ascii "syntax = \"proto3\"; package a.b; message M { string name = 1; }") =
      .ok ⟨.Proto3, [ascii "a", ascii "b"], [], [],
        [.mk (ascii "M") [⟨.Identifier (ascii "string"), ascii "name", 1⟩] []], []⟩ [] ∧
    ProtoFieldType.Identifier (ascii "string") ≠ ProtoFieldType.String :=
  ⟨rfl, by decide⟩

/-- Claim C2 (amended): parsing
`syntax = "proto3"; package a.b; message M { string name = 1; }` yields a
Document with syntaxVersion Proto3, package `["a","b"]`, and exactly one
message `M` holding exactly one field whose type is the generic
`Identifier "string"` (the scanner has no scalar-type keywords, so
`string` lexes as a plain identifier), name `name`, number 1. -/
theorem basic_parse_amended :
    scanFile (ascii "syntax = \"proto3\"; package a.b; message M { string name = 1; }") =
      .ok ⟨.Proto3, [ascii "a", ascii "b"], [], [],
        [.mk (ascii "M") [⟨.Identifier (ascii "string"), ascii "name", 1⟩] []], []⟩ [] :=
  rfl

/-- Claim C3 (counterexample): parsing
`syntax = "proto3"; message M { map<string, int32> x = 1; }` yields a field
whose type is `Map` with key `Identifier "string"` — not the scalar
`String` key type the claim demands (the scanner lexes `string` as a
generic identifier). -/
theorem map_parse_key_not_scalar :
    scanFile (ascii "syntax = \"proto3\"; message M { map<string, int32> x = 1; }") =
      .ok ⟨.Proto3, [], [], [],
        [.mk (ascii "M")
          [⟨.Map (.Identifier (ascii "string")) (.Identifier (ascii "int32")),
            ascii "x", 1⟩] []], []⟩ [] ∧
    ProtoFieldType.Identifier (ascii "string") ≠ ProtoFieldType.String :=
  ⟨rfl, by decide⟩

/-- Claim C3 (amended): parsing
`syntax = "proto3"; message M { map<string, int32> x = 1; }` yields a field
whose type is `Map` with key `Identifier "string"` and value
`Identifier "int32"`; the `map` field type requires `<`, a key FieldType,
`,`, a value FieldType, `>`, with key and value resolved recursively by
`from_token`, so a map is permitted as the value type (second conjunct:
`map<string, map<string, int32>>` parses with a nested `Map` value). -/
theorem map_parse_amended :
    scanFile (ascii "syntax = \"proto3\"; message M { map<string, int32> x = 1; }") =
      .ok ⟨.Proto3, [], [], [],
        [.mk (ascii "M")
          [⟨.Map (.Identifier (ascii "string")) (.Identifier (ascii "int32")),
            ascii "x", 1⟩] []], []⟩ [] ∧
    scanFile
        (ascii "syntax = \"proto3\"; message M { map<string, map<string, int32>> y = 2; }") =
      .ok ⟨.Proto3, [], [], [],
        [.mk (ascii "M")
          [⟨.Map (.Identifier (ascii "string"))
              (.Map (.Identifier (ascii "string")) (.Identifier (ascii "int32"))),
            ascii "y", 2⟩] []], []⟩ [] :=
  ⟨rfl, rfl⟩

/-- Claim C4 (counterexample): on `foo.` the internal `full_ident` routine
does fail with `ident is required after a dot`, and on an unterminated
string literal the internal `string_literal` routine does fail — but
`Scanner::next` discards both errors, so lexing `foo.` and lexing `"abc`
each silently yield the empty token sequence (end-of-sequence with all
input consumed) instead of a reported error. -/
theorem dot_and_string_errors_swallowed :
    fullIdentFn (ascii "foo.") = (.error "ident is required after a dot", []) ∧
    scanNext (ascii "foo.") = .eof [] ∧
    (stringLitFn 34 (ascii "abc")).1 = .error "didn\x27t match predicate" ∧
    scanNext (ascii "\"abc") = .eof [] :=
  ⟨rfl, rfl, rfl, rfl⟩

/-- Claim C4 (amended): a dot not followed by another identifier makes the
internal `full_ident` routine fail with `ident is required after a dot`,
and a string literal unterminated before end-of-input makes the internal
`string_literal` routine fail; but `Scanner::next` swallows both errors
(the `if let Ok(Some(..))` and `Err(_) => None` patterns), so the token
sequence silently ends — or, when bytes follow the bad construct, silently
resumes after the consumed bytes (`foo.;` lexes to a lone semicolon). -/
theorem dot_and_string_errors_amended :
    fullIdentFn (ascii "foo.") = (.error "ident is required after a dot", []) ∧
    scanNext (ascii "foo.") = .eof [] ∧
    (stringLitFn 34 (ascii "abc")).1 = .error "didn\x27t match predicate" ∧
    scanNext (ascii "\"abc") = .eof [] ∧
    scanNext (ascii "foo.;") = .tok .SemiColon [] :=
  ⟨rfl, rfl, rfl, rfl, rfl⟩

/-- Claim C5: comment-token equivalences.  `//comment\n`, `//comment`
at end of input, and `/*comment*/` all lex to a comment token with text
`comment`; `/*comm*ent*/` keeps the embedded `*` that is not followed by
`/`; `/*comm\nent*/` keeps the embedded newline. -/
theorem comment_equivalences :
    scanNext (ascii "//comment\n") = .tok (.Comment (ascii "comment")) [] ∧
    scanNext (ascii "//comment") = .tok (.Comment (ascii "comment")) [] ∧
    scanNext (ascii "/*comment*/") = .tok (.Comment (ascii "comment")) [] ∧
    scanNext (ascii "/*comm*ent*/") = .tok (.Comment (ascii "comm*ent")) [] ∧
    scanNext (ascii "/*comm\nent*/") = .tok (.Comment (ascii "comm\nent")) [] :=
  ⟨rfl, rfl, rfl, rfl, rfl⟩

/-- Claim C9: the parser panics instead of returning an error on a
top-level `enum` keyword and on a second `syntax` keyword (both
`todo!()`), and the lexer panics on a `/*` block comment unterminated at
end-of-input — the explicit `panic!("EOF before end of multiline
comment")` after a trailing `*`, and the `.unwrap()` of the failed
`take_until_consume` when no `*` is ever found. -/
theorem parser_panics_on_unimplemented :
    scanFile (ascii "syntax = \"proto3\"; enum") = .panicked "not yet implemented" ∧
    scanFile (ascii "syntax = \"proto3\"; syntax") = .panicked "not yet implemented" ∧
    scanNext (ascii "/*x*") = .panicked "EOF before end of multiline comment" ∧
    scanNext (ascii "/*x") =
      .panicked "called unwrap on an Err value: didn\x27t match predicate" :=
  ⟨rfl, rfl, rfl, rfl⟩

/-- Claim C8: parsing is deterministic — the parse is a pure function of
the input bytes (the Rust code consumes only the byte stream, with no
other input), so identical input byte sequences yield identical documents
or identical error or panic outcomes. -/
theorem parse_deterministic :
    ∀ b1 b2 : List Nat, b1 = b2 → scanFile b1 = scanFile b2 :=
  fun _ _ h => h ▸ rfl

/-- Closed witness for C8 at a concrete input. -/
theorem parse_deterministic_witness :
    scanFile (ascii "syntax = \"proto3\";") = scanFile (ascii "syntax = \"proto3\";") :=
  parse_deterministic (ascii "syntax = \"proto3\";") (ascii "syntax = \"proto3\";") rfl

/-- Claim C7: the syntax declaration must come first — any successful
`scan_file` begins with a successful `scan_syntax` (first conjunct);
`scan_syntax` accepts exactly `syntax`, `=`, a string literal `proto3` or
`proto2`, `;` (conjuncts two and three), any other literal value is the
fatal `expected a syntax of either ..` error (fourth), missing the
construct at the start is fatal (fifth, with the `expect` mismatch error),
and leading comments are transparently skipped, so the declaration need
only be the first non-comment construct (last conjunct). -/
theorem syntax_decl_first :
    (∀ bs d rest, scanFile bs = .ok d rest → ∃ s r, scanSyntax bs = .ok s r) ∧
    scanSyntax (ascii "syntax = \"proto3\";") = .ok .Proto3 [] ∧
    scanSyntax (ascii "syntax = \"proto2\";") = .ok .Proto2 [] ∧
    scanSyntax (ascii "syntax = \"proto1\";") =
      .err "expected a syntax of either \x27proto3\x27 or \x27proto2\x27" ∧
    scanFile (ascii "package a.b;") = .err "wanted Syntax but got Package" ∧
    scanFile (ascii "//first\nsyntax = \"proto3\";") = .ok ⟨.Proto3, [], [], [], [], []⟩ [] := by
  refine ⟨?_, rfl, rfl, rfl, rfl, rfl⟩
  intro bs d rest h
  unfold scanFile at h
  cases hs : scanSyntax bs with
  | ok s r => exact ⟨s, r, rfl⟩
  | err m => rw [hs] at h; exact absurd h (by simp)
  | panicked m => rw [hs] at h; exact absurd h (by simp)

/-- Closed witness for C7's universally quantified first conjunct, at the
concrete document of the basic-parse example. -/
theorem syntax_decl_first_witness :
    ∃ s r, scanSyntax (ascii "syntax = \"proto3\"; package a.b; message M { string name = 1; }") =
      .ok s r :=
  syntax_decl_first.1
    (ascii "syntax = \"proto3\"; package a.b; message M { string name = 1; }")
    ⟨.Proto3, [ascii "a", ascii "b"], [], [],
      [.mk (ascii "M") [⟨.Identifier (ascii "string"), ascii "name", 1⟩] []], []⟩
    [] rfl

/-- Claim C6: a next non-whitespace byte that starts no token production —
not a letter (identifier start), not `"` or `'` (string delimiter), not a
non-zero digit, not one of the twelve punctuation bytes, and not `/`
(comment start) — makes `Scanner::next` return end-of-sequence, without
consuming the byte and without raising any error or panic. -/
theorem unrecognized_byte_terminates :
    ∀ bs c rest, skipWs bs = c :: rest →
      isAlphaByte c = false → c ≠ 34 → c ≠ 39 →
      (49 ≤ c && c ≤ 57) = false →
      c ∉ [59, 61, 123, 125, 40, 41, 91, 93, 58, 60, 62, 44] → c ≠ 47 →
      scanNext bs = .eof (c :: rest) := by
  intro bs c rest hws halpha h34 h39 hdig hpunct h47
  simp only [List.mem_cons, List.not_mem_nil, or_false, not_or] at hpunct
  obtain ⟨p1, p2, p3, p4, p5, p6, p7, p8, p9, p10, p11, p12⟩ := hpunct
  have hident : identFn (c :: rest) = none := by simp [identFn, halpha]
  have hfull : fullIdentFn (c :: rest) = (.ok none, c :: rest) := by
    simp [fullIdentFn, fullIdentLoop, hident]
  have hstring : stringFn (c :: rest) = none := by simp [stringFn, h34, h39]
  have hint : intLitFn (c :: rest) = none := by simp [intLitFn, hdig]
  unfold scanNext
  rw [hws]
  simp [nextCore, hfull, stringPhase, hstring, intPhase, hint, punctPhase,
    p1, p2, p3, p4, p5, p6, p7, p8, p9, p10, p11, p12, h47]

/-- Closed witness for C6: lexing `@` (byte 64) terminates the token
sequence. -/
theorem unrecognized_byte_terminates_witness :
    scanNext (ascii "@") = .eof (ascii "@") :=
  unrecognized_byte_terminates (ascii "@") 64 [] rfl (by decide) (by decide)
    (by decide) (by decide) (by decide) (by decide)

/-- Claim C1 (counterexample): `bool` is not in the scanner's keyword
table — lexing it yields a generic `Identifier` token, not the scalar
`Bool` keyword token the claim requires. -/
theorem bool_lexes_as_identifier :
    scanNext (ascii "bool") = .tok (.Identifier (ascii "bool")) [] ∧
    ProtoToken.Identifier (ascii "bool") ≠ ProtoToken.Bool :=
  ⟨rfl, by decide⟩

/-- Claim C1 (amended): the scanner's fixed case-sensitive keyword table
holds exactly the seventeen entries `syntax, package, option, import,
message, service, enum, oneof, repeated, weak, public, reserved, extend,
extensions, to, max, map` — lexing each yields its keyword token,
consuming the whole input (first group).  The scalar-type names `bool,
string, bytes, float, double` are NOT keywords: they lex to generic
`Identifier` tokens (second group), as does every other single identifier
segment not in the table (third conjunct).  A multi-segment (dot-joined)
match is never a keyword: whenever `full_ident` yields two or more
segments, the token is a `FullIdentifier` (last conjunct). -/
theorem keyword_table_amended :
    (scanNext (ascii "syntax") = .tok .Syntax [] ∧
     scanNext (ascii "package") = .tok .Package [] ∧
     scanNext (ascii "option") = .tok .Option [] ∧
     scanNext (ascii "import") = .tok .Import [] ∧
     scanNext (ascii "message") = .tok .Message [] ∧
     scanNext (ascii "service") = .tok .Service [] ∧
     scanNext (ascii "enum") = .tok .Enum [] ∧
     scanNext (ascii "oneof") = .tok .OneOf [] ∧
     scanNext (ascii "repeated") = .tok .Repeated [] ∧
     scanNext (ascii "weak") = .tok .Weak [] ∧
     scanNext (ascii "public") = .tok .Public [] ∧
     scanNext (ascii "reserved") = .tok .Reserved [] ∧
     scanNext (ascii "extend") = .tok .Extend [] ∧
     scanNext (ascii "extensions") = .tok .Extensions [] ∧
     scanNext (ascii "to") = .tok .To [] ∧
     scanNext (ascii "max") = .tok .Max [] ∧
     scanNext (ascii "map") = .tok .Map []) ∧
    (scanNext (ascii "bool") = .tok (.Identifier (ascii "bool")) [] ∧
     scanNext (ascii "string") = .tok (.Identifier (ascii "string")) [] ∧
     scanNext (ascii "bytes") = .tok (.Identifier (ascii "bytes")) [] ∧
     scanNext (ascii "float") = .tok (.Identifier (ascii "float")) [] ∧
     scanNext (ascii "double") = .tok (.Identifier (ascii "double")) []) ∧
    (∀ c rest, isAlphaByte c = true → (∀ x ∈ c :: rest, isIdentByte x = true) →
      (c :: rest) ∉ keywordList →
      scanNext (c :: rest) = .tok (.Identifier (c :: rest)) []) ∧
    (∀ bs segs rest, fullIdentFn (skipWs bs) = (.ok (some segs), rest) →
      2 ≤ segs.length → scanNext bs = .tok (.FullIdentifier segs) rest) := by
  refine ⟨⟨rfl, rfl, rfl, rfl, rfl, rfl, rfl, rfl, rfl, rfl, rfl, rfl, rfl, rfl, rfl,
    rfl, rfl⟩, ⟨rfl, rfl, rfl, rfl, rfl⟩, ?_, ?_⟩
  · intro c rest halpha hall hkw
    have hws : skipWs (c :: rest) = c :: rest := by
      have halpha' := halpha
      simp only [isAlphaByte, Bool.or_eq_true, Bool.and_eq_true,
        decide_eq_true_eq] at halpha'
      have : isWsByte c = false := by
        simp only [isWsByte, Bool.or_eq_false_iff, decide_eq_false_iff_not]
        omega
      simp [skipWs, List.dropWhile_cons, this]
    have htake : (c :: rest).takeWhile isIdentByte = c :: rest :=
      List.takeWhile_eq_self_iff.mpr hall
    have hdrop : (c :: rest).dropWhile isIdentByte = [] :=
      List.dropWhile_eq_nil_iff.mpr hall
    have hident : identFn (c :: rest) = some (c :: rest, []) := by
      simp [identFn, halpha, htake, hdrop]
    have hfull : fullIdentFn (c :: rest) = (.ok (some [c :: rest]), []) := by
      simp [fullIdentFn, fullIdentLoop, hident]
    simp only [keywordList, List.mem_cons, List.not_mem_nil, or_false,
      not_or] at hkw
    obtain ⟨k1, k2, k3, k4, k5, k6, k7, k8, k9, k10, k11, k12, k13, k14, k15,
      k16, k17⟩ := hkw
    have hkwtok : keywordToken (c :: rest) = .Identifier (c :: rest) := by
      simp only [keywordToken, if_neg k1, if_neg k2, if_neg k3, if_neg k4,
        if_neg k5, if_neg k6, if_neg k7, if_neg k8, if_neg k9, if_neg k10,
        if_neg k11, if_neg k12, if_neg k13, if_neg k14, if_neg k15,
        if_neg k16, if_neg k17]
    unfold scanNext
    rw [hws]
    simp [nextCore, hfull, hkwtok]
  · intro bs segs rest hfi hlen
    unfold scanNext nextCore
    rw [hfi]
    match segs, hlen with
    | a :: b :: t, _ => rfl

/-- Closed witness for C1's quantified conjuncts: the non-keyword
identifier `foo` and the two-segment full identifier `a.b`. -/
theorem keyword_table_amended_witness :
    scanNext (ascii "foo") = .tok (.Identifier (ascii "foo")) [] ∧
    scanNext (ascii "a.b") = .tok (.FullIdentifier [ascii "a", ascii "b"]) [] :=
  ⟨keyword_table_amended.2.2.1 102 [111, 111] (by decide) (by decide) (by decide),
   keyword_table_amended.2.2.2 (ascii "a.b") [ascii "a", ascii "b"] [] rfl (by decide)⟩

lemma blockLoop_not_intLit (fuel : Nat) :
    ∀ acc bs n rest, blockLoop fuel acc bs ≠ .tok (.IntLiteral n) rest := by
  induction fuel with
  | zero => intro acc bs n rest h; exact NextRes.noConfusion h
  | succ m ih =>
    intro acc bs n rest h
    simp only [blockLoop] at h
    split at h
    · exact NextRes.noConfusion h
    · split at h
      · exact NextRes.noConfusion h
      · split at h
        · injection h with h1 h2
          exact ProtoToken.noConfusion h1
        · exact ih _ _ _ _ h

lemma lineCommentTok_not_intLit (bs : List Nat) (n : Nat) (rest : List Nat) :
    lineCommentTok bs ≠ .tok (.IntLiteral n) rest := by
  intro h
  simp only [lineCommentTok] at h
  injection h with h1 h2
  exact ProtoToken.noConfusion h1

lemma slashPhase_not_intLit (bs : List Nat) (n : Nat) (rest : List Nat) :
    slashPhase bs ≠ .tok (.IntLiteral n) rest := by
  intro h
  cases bs with
  | nil => exact NextRes.noConfusion h
  | cons c r =>
    simp only [slashPhase] at h
    by_cases h1 : c = 47
    · rw [if_pos h1] at h
      exact lineCommentTok_not_intLit _ _ _ h
    · rw [if_neg h1] at h
      by_cases h2 : c = 42
      · rw [if_pos h2] at h
        exact blockLoop_not_intLit _ _ _ _ _ h
      · rw [if_neg h2] at h
        exact NextRes.noConfusion h


lemma punctPhase_not_intLit (bs : List Nat) (n : Nat) (rest : List Nat) :
    punctPhase bs ≠ .tok (.IntLiteral n) rest := by
  intro h
  cases bs with
  | nil => exact NextRes.noConfusion h
  | cons c r =>
    simp only [punctPhase] at h
    by_cases h1 : c = 59
    · rw [if_pos h1] at h
      injection h with ha hb
      exact ProtoToken.noConfusion ha
    · rw [if_neg h1] at h
      by_cases h2 : c = 61
      · rw [if_pos h2] at h
        injection h with ha hb
        exact ProtoToken.noConfusion ha
      · rw [if_neg h2] at h
        by_cases h3 : c = 123
        · rw [if_pos h3] at h
          injection h with ha hb
          exact ProtoToken.noConfusion ha
        · rw [if_neg h3] at h
          by_cases h4 : c = 125
          · rw [if_pos h4] at h
            injection h with ha hb
            exact ProtoToken.noConfusion ha
          · rw [if_neg h4] at h
            by_cases h5 : c = 40
            · rw [if_pos h5] at h
              injection h with ha hb
              exact ProtoToken.noConfusion ha
            · rw [if_neg h5] at h
              by_cases h6 : c = 41
              · rw [if_pos h6] at h
                injection h with ha hb
                exact ProtoToken.noConfusion ha
              · rw [if_neg h6] at h
                by_cases h7 : c = 91
                · rw [if_pos h7] at h
                  injection h with ha hb
                  exact ProtoToken.noConfusion ha
                · rw [if_neg h7] at h
                  by_cases h8 : c = 93
                  · rw [if_pos h8] at h
                    injection h with ha hb
                    exact ProtoToken.noConfusion ha
                  · rw [if_neg h8] at h
                    by_cases h9 : c = 58
                    · rw [if_pos h9] at h
                      injection h with ha hb
                      exact ProtoToken.noConfusion ha
                    · rw [if_neg h9] at h
                      by_cases h10 : c = 60
                      · rw [if_pos h10] at h
                        injection h with ha hb
                        exact ProtoToken.noConfusion ha
                      · rw [if_neg h10] at h
                        by_cases h11 : c = 62
                        · rw [if_pos h11] at h
                          injection h with ha hb
                          exact ProtoToken.noConfusion ha
                        · rw [if_neg h11] at h
                          by_cases h12 : c = 44
                          · rw [if_pos h12] at h
                            injection h with ha hb
                            exact ProtoToken.noConfusion ha
                          · rw [if_neg h12] at h
                            by_cases h13 : c = 47
                            · rw [if_pos h13] at h
                              exact slashPhase_not_intLit _ _ _ h
                            · rw [if_neg h13] at h
                              exact NextRes.noConfusion h

lemma keywordToken_ne_intLit (nv : List Nat) (n : Nat) :
    keywordToken nv ≠ .IntLiteral n := by
  intro h
  unfold keywordToken at h
  by_cases h1 : nv = ascii "syntax"
  · rw [if_pos h1] at h
    exact ProtoToken.noConfusion h
  · rw [if_neg h1] at h
    by_cases h2 : nv = ascii "package"
    · rw [if_pos h2] at h
      exact ProtoToken.noConfusion h
    · rw [if_neg h2] at h
      by_cases h3 : nv = ascii "option"
      · rw [if_pos h3] at h
        exact ProtoToken.noConfusion h
      · rw [if_neg h3] at h
        by_cases h4 : nv = ascii "import"
        · rw [if_pos h4] at h
          exact ProtoToken.noConfusion h
        · rw [if_neg h4] at h
          by_cases h5 : nv = ascii "message"
          · rw [if_pos h5] at h
            exact ProtoToken.noConfusion h
          · rw [if_neg h5] at h
            by_cases h6 : nv = ascii "service"
            · rw [if_pos h6] at h
              exact ProtoToken.noConfusion h
            · rw [if_neg h6] at h
              by_cases h7 : nv = ascii "enum"
              · rw [if_pos h7] at h
                exact ProtoToken.noConfusion h
              · rw [if_neg h7] at h
                by_cases h8 : nv = ascii "oneof"
                · rw [if_pos h8] at h
                  exact ProtoToken.noConfusion h
                · rw [if_neg h8] at h
                  by_cases h9 : nv = ascii "repeated"
                  · rw [if_pos h9] at h
                    exact ProtoToken.noConfusion h
                  · rw [if_neg h9] at h
                    by_cases h10 : nv = ascii "weak"
                    · rw [if_pos h10] at h
                      exact ProtoToken.noConfusion h
                    · rw [if_neg h10] at h
                      by_cases h11 : nv = ascii "public"
                      · rw [if_pos h11] at h
                        exact ProtoToken.noConfusion h
                      · rw [if_neg h11] at h
                        by_cases h12 : nv = ascii "reserved"
                        · rw [if_pos h12] at h
                          exact ProtoToken.noConfusion h
                        · rw [if_neg h12] at h
                          by_cases h13 : nv = ascii "extend"
                          · rw [if_pos h13] at h
                            exact ProtoToken.noConfusion h
                          · rw [if_neg h13] at h
                            by_cases h14 : nv = ascii "extensions"
                            · rw [if_pos h14] at h
                              exact ProtoToken.noConfusion h
                            · rw [if_neg h14] at h
                              by_cases h15 : nv = ascii "to"
                              · rw [if_pos h15] at h
                                exact ProtoToken.noConfusion h
                              · rw [if_neg h15] at h
                                by_cases h16 : nv = ascii "max"
                                · rw [if_pos h16] at h
                                  exact ProtoToken.noConfusion h
                                · rw [if_neg h16] at h
                                  by_cases h17 : nv = ascii "map"
                                  · rw [if_pos h17] at h
                                    exact ProtoToken.noConfusion h
                                  · rw [if_neg h17] at h
                                    exact ProtoToken.noConfusion h

lemma foldl_digit_lower (ds : List Nat) :
    ∀ a, 1 ≤ a → 1 ≤ ds.foldl (fun a d => a * 10 + (d - 48)) a := by
  induction ds with
  | nil => intro a h; exact h
  | cons d t ih =>
    intro a h
    rw [List.foldl_cons]
    apply ih
    have : a ≤ a * 10 := Nat.le_mul_of_pos_right a (by norm_num)
    omega

lemma parseDigits_pos (c : Nat) (ds : List Nat) (h : 49 ≤ c) :
    1 ≤ parseDigits (c :: ds) := by
  unfold parseDigits
  rw [List.foldl_cons]
  apply foldl_digit_lower
  omega

lemma intLitFn_shape (bs ds rest : List Nat) (h : intLitFn bs = some (ds, rest)) :
    ∃ c t, ds = c :: t ∧ 49 ≤ c := by
  cases bs with
  | nil => simp [intLitFn] at h
  | cons c r =>
    simp only [intLitFn] at h
    split at h
    · rename_i hc
      simp only [Bool.and_eq_true, decide_eq_true_eq] at hc
      have hd : isDigitByte c = true := by
        simp only [isDigitByte, Bool.and_eq_true, decide_eq_true_eq]
        omega
      rw [List.takeWhile_cons_of_pos hd] at h
      split at h
      · simp at h
      · injection h with h1
        cases h1
        exact ⟨c, List.takeWhile isDigitByte r, rfl, hc.1⟩
    · simp at h

lemma intPhase_intLit_pos (bs : List Nat) (n : Nat) (rest : List Nat)
    (h : intPhase bs = .tok (.IntLiteral n) rest) : 1 ≤ n := by
  unfold intPhase at h
  rcases hi : intLitFn bs with _ | ⟨ds, r⟩
  · simp only [hi] at h
    exact absurd h (punctPhase_not_intLit bs n rest)
  · simp only [hi] at h
    split at h
    · injection h with h1 h2
      injection h1 with h1
      obtain ⟨c, t, hds, hc⟩ := intLitFn_shape bs ds r hi
      subst hds
      exact h1 ▸ parseDigits_pos c t hc
    · exact NextRes.noConfusion h

lemma stringPhase_intLit_pos (bs : List Nat) (n : Nat) (rest : List Nat)
    (h : stringPhase bs = .tok (.IntLiteral n) rest) : 1 ≤ n := by
  unfold stringPhase at h
  split at h
  · injection h with h1 h2
    exact ProtoToken.noConfusion h1
  · exact NextRes.noConfusion h
  · exact intPhase_intLit_pos bs n rest h

lemma scanNext_intLit_pos (bs : List Nat) (n : Nat) (rest : List Nat)
    (h : scanNext bs = .tok (.IntLiteral n) rest) : 1 ≤ n := by
  unfold scanNext nextCore at h
  split at h
  · split at h
    · injection h with h1 h2
      exact absurd h1 (keywordToken_ne_intLit _ n)
    · injection h with h1 h2
      exact ProtoToken.noConfusion h1
  · exact stringPhase_intLit_pos _ n rest h
  · exact stringPhase_intLit_pos _ n rest h

lemma scanMessageField_good :
    ∀ fuel first bs f rest, scanMessageField fuel first bs = .ok f rest →
      1 ≤ f.index ∧ f.index ≤ 65535 := by
  intro fuel first bs f rest h
  cases fuel with
  | zero => exact PRes.noConfusion h
  | succ m =>
    simp only [scanMessageField] at h
    split at h
    · split at h
      · split at h
        · split at h
          · rename_i idx r4 hq
            split at h
            · split at h
              · rename_i hle
                injection h with hf hr
                subst hf
                exact ⟨scanNext_intLit_pos _ _ _ hq, hle⟩
              · exact PRes.noConfusion h
            · exact PRes.noConfusion h
            · exact PRes.noConfusion h
          · exact PRes.noConfusion h
          · exact PRes.noConfusion h
          · exact PRes.noConfusion h
        · exact PRes.noConfusion h
        · exact PRes.noConfusion h
      · exact PRes.noConfusion h
      · exact PRes.noConfusion h
      · exact PRes.noConfusion h
    · exact PRes.noConfusion h
    · exact PRes.noConfusion h

lemma parserGood : ∀ fuel,
    (∀ bs msg rest, scanMessage fuel bs = .ok msg rest → GoodMsg msg) ∧
    (∀ name fields msgs bs msg rest,
      (∀ f ∈ fields, 1 ≤ f.index ∧ f.index ≤ 65535) →
      (∀ x ∈ msgs, GoodMsg x) →
      scanMessageLoop fuel name fields msgs bs = .ok msg rest → GoodMsg msg) := by
  intro fuel
  induction fuel with
  | zero =>
    exact ⟨fun bs msg rest h => PRes.noConfusion h,
           fun name fields msgs bs msg rest _ _ h => PRes.noConfusion h⟩
  | succ m ih =>
    obtain ⟨ihM, ihL⟩ := ih
    constructor
    · intro bs msg rest h
      simp only [scanMessage] at h
      split at h
      · split at h
        · exact ihL _ _ _ _ _ _ (by simp) (by simp) h
        · exact PRes.noConfusion h
        · exact PRes.noConfusion h
      · exact PRes.noConfusion h
      · exact PRes.noConfusion h
      · exact PRes.noConfusion h
    · intro name fields msgs bs msg rest hf hm h
      simp only [scanMessageLoop] at h
      split at h
      · injection h with h1 h2
        subst h1
        exact GoodMsg.mk name fields msgs hf hm
      · exact PRes.noConfusion h
      · split at h
        · injection h with h1 h2
          subst h1
          exact GoodMsg.mk name fields msgs hf hm
        · split at h
          · rename_i m2 r2 hsm
            refine ihL _ _ _ _ _ _ hf ?_ h
            intro x hx
            rcases List.mem_append.mp hx with hx | hx
            · exact hm x hx
            · rw [List.mem_singleton] at hx
              subst hx
              exact ihM _ _ _ hsm
          · exact PRes.noConfusion h
          · exact PRes.noConfusion h
        · split at h
          · rename_i f2 r2 hsf
            refine ihL _ _ _ _ _ _ ?_ hm h
            intro x hx
            rcases List.mem_append.mp hx with hx | hx
            · exact hf x hx
            · rw [List.mem_singleton] at hx
              subst hx
              exact scanMessageField_good m _ _ _ _ hsf
          · exact PRes.noConfusion h
          · exact PRes.noConfusion h

lemma scanFileLoop_good : ∀ fuel syn pkg imps opts msgs svcs bs d rest,
    (∀ x ∈ msgs, GoodMsg x) →
    scanFileLoop fuel syn pkg imps opts msgs svcs bs = .ok d rest →
    ∀ x ∈ d.messages, GoodMsg x := by
  intro fuel
  induction fuel with
  | zero => intro syn pkg imps opts msgs svcs bs d rest hm h; exact PRes.noConfusion h
  | succ m ih =>
    intro syn pkg imps opts msgs svcs bs d rest hm h
    simp only [scanFileLoop] at h
    split at h
    · injection h with h1 h2
      subst h1
      exact hm
    · exact PRes.noConfusion h
    · split at h
      · exact ih _ _ _ _ _ _ _ _ _ hm h
      · exact ih _ _ _ _ _ _ _ _ _ hm h
      · exact PRes.noConfusion h
      · split at h
        · exact ih _ _ _ _ _ _ _ _ _ hm h
        · exact PRes.noConfusion h
        · exact PRes.noConfusion h
      · split at h
        · exact ih _ _ _ _ _ _ _ _ _ hm h
        · exact PRes.noConfusion h
        · exact PRes.noConfusion h
      · split at h
        · exact ih _ _ _ _ _ _ _ _ _ hm h
        · exact PRes.noConfusion h
        · exact PRes.noConfusion h
      · split at h
        · rename_i m2 r2 hsm
          refine ih _ _ _ _ _ _ _ _ _ ?_ h
          intro x hx
          rcases List.mem_append.mp hx with hx | hx
          · exact hm x hx
          · rw [List.mem_singleton] at hx
            subst hx
            exact (parserGood m).1 _ _ _ hsm
        · exact PRes.noConfusion h
        · exact PRes.noConfusion h
      · split at h
        · exact ih _ _ _ _ _ _ _ _ _ hm h
        · exact PRes.noConfusion h
        · exact PRes.noConfusion h
      · exact PRes.noConfusion h
      · exact PRes.noConfusion h

/-- Claim C10: in every Document a parse returns successfully, every
message field's number — recursively through nested messages — is between
1 and 65535 inclusive: the integer-literal rule `[1-9][0-9]*` makes the
lexed value at least 1 (`scanNext_intLit_pos`), and the `u16` conversion
`index.try_into()?` aborts the parse with an error above 65535 (second
conjunct: a field number 65536 fails the parse with the out-of-range
error). -/
theorem field_number_invariant :
    (∀ bs d rest, scanFile bs = .ok d rest → ∀ m ∈ d.messages, GoodMsg m) ∧
    scanFile (ascii "syntax = \"proto3\"; message M { string name = 65536; }") =
      .err "out of range integral type conversion attempted" := by
  constructor
  · intro bs d rest h m hm
    unfold scanFile at h
    split at h
    · exact scanFileLoop_good _ _ _ _ _ _ _ _ _ _ (by simp) h m hm
    · exact PRes.noConfusion h
    · exact PRes.noConfusion h
  · rfl

/-- Closed witness for C10 at the basic-parse document: its single message
satisfies the field-number invariant. -/
theorem field_number_invariant_witness :
    GoodMsg (.mk (ascii "M") [⟨.Identifier (ascii "string"), ascii "name", 1⟩] []) :=
  field_number_invariant.1
    (ascii "syntax = \"proto3\"; package a.b; message M { string name = 1; }")
    ⟨.Proto3, [ascii "a", ascii "b"], [], [],
      [.mk (ascii "M") [⟨.Identifier (ascii "string"), ascii "name", 1⟩] []], []⟩
    [] rfl
    (.mk (ascii "M") [⟨.Identifier (ascii "string"), ascii "name", 1⟩] [])
    (List.Mem.head _)
